import Mathlib

/-!
Verification of the SMS-marketing backend's core pipeline against its
natural-language specification.

The development shallowly embeds the JavaScript services as pure Lean
functions over explicit state records:

* the credit ledger (apps/api/src/services/wallet.service.js),
* the campaign enqueue transaction
  (apps/api/src/services/campaignEnqueue.service.js, first revision, the
  one with the conditional status update),
* the dispatch worker's failure path and campaign auto-completion
  (apps/worker/src/sms.worker.js),
* finalizeCampaignIfDone (campaignFinalizer.service.js),
* the delivery-report webhook application (routes/mitto.webhooks.js, the
  revision that performs HMAC verification over the raw body, matching
  the server.js body-parser setup),
* the campaign statistics service (campaignStats.service.js).

Timestamps are abstracted as naturals, balances as integers, and the
database rows as lists of records.  Randomly generated tracking ids are
passed in as an explicit generator function.
-/

set_option maxRecDepth 4096

namespace SmsBackend

/-! ## Credit ledger (wallet.service.js) -/

/-- CreditTransaction.type column. -/
inductive TxnType
  | credit
  | debit
  | refund
deriving DecidableEq, Repr

/-- Optional metadata passed to the wallet operations
(reason/campaignId/messageId; the free-form meta JSON is dropped). -/
structure TxnMeta where
  reason : Option String := none
  campaignId : Option Nat := none
  messageId : Option Nat := none
deriving DecidableEq, Repr

/-- One CreditTransaction row.  The amount column is stored positive
(the source stores Math.abs of the delta). -/
structure LedgerEntry where
  ownerId : Nat
  ty : TxnType
  amount : Nat
  balanceAfter : Int
  reason : Option String
  campaignId : Option Nat
  messageId : Option Nat
deriving DecidableEq, Repr

/-- The wallet row plus the owner's append-only ledger, oldest first. -/
structure WalletState where
  balance : Int
  ledger : List LedgerEntry
deriving DecidableEq, Repr

/-- A lazily created wallet starts at balance 0 with an empty ledger
(ensureWallet / the upsert inside appendTxnAndUpdate). -/
def initWallet : WalletState := { balance := 0, ledger := [] }

/-- Errors thrown by the wallet service. -/
inductive WalletErr
  | invalidAmount
  | insufficientCredits
deriving DecidableEq, Repr

/-- appendTxnAndUpdate: read the wallet, compute the new balance, throw
INSUFFICIENT_CREDITS when it would go negative, otherwise write the new
balance and append one ledger row whose balanceAfter snapshots it. -/
def appendTxnAndUpdate (ownerId : Nat) (s : WalletState) (delta : Int)
    (ty : TxnType) (m : TxnMeta) : Except WalletErr WalletState :=
  let newBalance := s.balance + delta
  if newBalance < 0 then
    .error .insufficientCredits
  else
    .ok { balance := newBalance,
          ledger := s.ledger ++
            [{ ownerId := ownerId, ty := ty, amount := delta.natAbs,
               balanceAfter := newBalance, reason := m.reason,
               campaignId := m.campaignId, messageId := m.messageId }] }

/-- credit: validates the amount is a positive integer, then applies a
positive delta.  Integrality is inherent to the `Int` embedding. -/
def credit (ownerId : Nat) (s : WalletState) (amount : Int) (m : TxnMeta) :
    Except WalletErr WalletState :=
  if amount ≤ 0 then .error .invalidAmount
  else appendTxnAndUpdate ownerId s amount .credit m

/-- debit: validates the amount, then applies a negative delta; throws
INSUFFICIENT_CREDITS when the balance would go negative. -/
def debit (ownerId : Nat) (s : WalletState) (amount : Int) (m : TxnMeta) :
    Except WalletErr WalletState :=
  if amount ≤ 0 then .error .invalidAmount
  else appendTxnAndUpdate ownerId s (-amount) .debit m

/-- refund: same as credit but records the row as type refund. -/
def refund (ownerId : Nat) (s : WalletState) (amount : Int) (m : TxnMeta) :
    Except WalletErr WalletState :=
  if amount ≤ 0 then .error .invalidAmount
  else appendTxnAndUpdate ownerId s amount .refund m

/-- One call into the wallet service. -/
inductive WalletOp
  | credit (amount : Int) (m : TxnMeta)
  | debit (amount : Int) (m : TxnMeta)
  | refund (amount : Int) (m : TxnMeta)
deriving DecidableEq, Repr

/-- A thrown wallet error leaves the state unchanged (the transaction
rolls back before any write). -/
def recoverState (s : WalletState) : Except WalletErr WalletState → WalletState
  | .ok s' => s'
  | .error _ => s

/-- Run one wallet operation. -/
def applyOp (ownerId : Nat) (s : WalletState) (op : WalletOp) : WalletState :=
  match op with
  | .credit a m => recoverState s (credit ownerId s a m)
  | .debit a m => recoverState s (debit ownerId s a m)
  | .refund a m => recoverState s (refund ownerId s a m)

/-- Run a sequence of wallet operations from a state. -/
def applyOps (ownerId : Nat) (s : WalletState) (ops : List WalletOp) :
    WalletState :=
  ops.foldl (applyOp ownerId) s

/-- The signed contribution of a ledger row: credit and refund count
positive, debit counts negative. -/
def signedAmount (e : LedgerEntry) : Int :=
  match e.ty with
  | .credit => (e.amount : Int)
  | .refund => (e.amount : Int)
  | .debit => -(e.amount : Int)

/-- Sum of the signed ledger amounts. -/
def signedSum (l : List LedgerEntry) : Int :=
  (l.map signedAmount).sum

/-- Every ledger row's balanceAfter snapshot equals the running balance
(starting from acc) immediately after that row was applied. -/
def snapshotsFrom : Int → List LedgerEntry → Prop
  | _, [] => True
  | acc, e :: rest =>
      e.balanceAfter = acc + signedAmount e ∧
      snapshotsFrom (acc + signedAmount e) rest

lemma signedSum_append (l₁ l₂ : List LedgerEntry) :
    signedSum (l₁ ++ l₂) = signedSum l₁ + signedSum l₂ := by
  simp [signedSum]

lemma snapshotsFrom_append (acc : Int) (l : List LedgerEntry)
    (e : LedgerEntry) :
    snapshotsFrom acc (l ++ [e]) ↔
      snapshotsFrom acc l ∧
      e.balanceAfter = acc + signedSum l + signedAmount e := by
  induction l generalizing acc with
  | nil => simp [snapshotsFrom, signedSum]
  | cons hd tl ih =>
      have h1 : ((hd :: tl) ++ [e]) = hd :: (tl ++ [e]) := rfl
      have h2 : signedSum (hd :: tl) = signedAmount hd + signedSum tl := by
        simp [signedSum]
      rw [h1]
      simp only [snapshotsFrom]
      rw [ih, h2]
      constructor
      · rintro ⟨ha, hb, hc⟩
        exact ⟨⟨ha, hb⟩, by rw [hc]; ring⟩
      · rintro ⟨⟨ha, hb⟩, hc⟩
        exact ⟨ha, hb, by rw [hc]; ring⟩

/-- The ledger invariant: balance matches the signed sum, the snapshots
are consistent, and the balance is nonnegative. -/
def WalletInv (s : WalletState) : Prop :=
  s.balance = signedSum s.ledger ∧ snapshotsFrom 0 s.ledger ∧ 0 ≤ s.balance

lemma walletInv_init : WalletInv initWallet := by
  refine ⟨rfl, trivial, le_refl 0⟩

lemma walletInv_appendTxnAndUpdate {ownerId : Nat} {s : WalletState}
    {delta : Int} {ty : TxnType} {m : TxnMeta} {s' : WalletState}
    (hinv : WalletInv s)
    (hsg : (ty = .debit → delta ≤ 0) ∧ (ty ≠ .debit → 0 ≤ delta))
    (h : appendTxnAndUpdate ownerId s delta ty m = .ok s') :
    WalletInv s' := by
  obtain ⟨hsum, hsnap, hpos⟩ := hinv
  unfold appendTxnAndUpdate at h
  by_cases hneg : s.balance + delta < 0
  · simp [hneg] at h
  · simp only [hneg, if_neg, if_false, Except.ok.injEq] at h
    subst h
    have hsigned :
        signedAmount ⟨ownerId, ty, delta.natAbs, s.balance + delta,
          m.reason, m.campaignId, m.messageId⟩ = delta := by
      obtain ⟨h1, h2⟩ := hsg
      cases ty with
      | credit =>
          have h3 : 0 ≤ delta := h2 (by intro hc; cases hc)
          simp only [signedAmount]
          omega
      | debit =>
          have h3 : delta ≤ 0 := h1 rfl
          simp only [signedAmount]
          omega
      | refund =>
          have h3 : 0 ≤ delta := h2 (by intro hc; cases hc)
          simp only [signedAmount]
          omega
    refine ⟨?_, ?_, ?_⟩
    · rw [signedSum_append, ← hsum]
      simp [signedSum, hsigned]
    · rw [snapshotsFrom_append]
      refine ⟨hsnap, ?_⟩
      rw [hsigned, ← hsum]
      simp
    · show (0 : Int) ≤ s.balance + delta
      omega

lemma walletInv_applyOp (ownerId : Nat) (s : WalletState) (op : WalletOp)
    (hinv : WalletInv s) : WalletInv (applyOp ownerId s op) := by
  cases op with
  | credit a m =>
      simp only [applyOp, credit]
      by_cases ha : a ≤ 0
      · simpa [ha, recoverState] using hinv
      · simp only [ha, if_false]
        cases hok : appendTxnAndUpdate ownerId s a .credit m with
        | error e => simpa [recoverState, hok] using hinv
        | ok s' =>
            simpa [recoverState, hok] using
              walletInv_appendTxnAndUpdate hinv
                (by constructor <;> intro h <;> first | omega | simp at h) hok
  | debit a m =>
      simp only [applyOp, debit]
      by_cases ha : a ≤ 0
      · simpa [ha, recoverState] using hinv
      · simp only [ha, if_false]
        cases hok : appendTxnAndUpdate ownerId s (-a) .debit m with
        | error e => simpa [recoverState, hok] using hinv
        | ok s' =>
            simpa [recoverState, hok] using
              walletInv_appendTxnAndUpdate hinv
                (by constructor <;> intro h <;> first | omega | simp at h) hok
  | refund a m =>
      simp only [applyOp, refund]
      by_cases ha : a ≤ 0
      · simpa [ha, recoverState] using hinv
      · simp only [ha, if_false]
        cases hok : appendTxnAndUpdate ownerId s a .refund m with
        | error e => simpa [recoverState, hok] using hinv
        | ok s' =>
            simpa [recoverState, hok] using
              walletInv_appendTxnAndUpdate hinv
                (by constructor <;> intro h <;> first | omega | simp at h) hok

lemma walletInv_applyOps (ownerId : Nat) (s : WalletState)
    (ops : List WalletOp) (hinv : WalletInv s) :
    WalletInv (applyOps ownerId s ops) := by
  induction ops generalizing s with
  | nil => simpa [applyOps] using hinv
  | cons op rest ih =>
      have h1 := walletInv_applyOp ownerId s op hinv
      simpa [applyOps, List.foldl_cons] using ih (applyOp ownerId s op) h1

/-- C1.  After any sequence of credit/debit/refund calls through the
wallet service, the balance equals the sum of the signed ledger amounts
(credit and refund positive, debit negative), every ledger entry's
balanceAfter equals the wallet balance immediately after that entry was
applied, and the balance is never negative. -/
theorem wallet_credit_conservation (ownerId : Nat) (ops : List WalletOp) :
    (applyOps ownerId initWallet ops).balance =
      signedSum (applyOps ownerId initWallet ops).ledger ∧
    snapshotsFrom 0 (applyOps ownerId initWallet ops).ledger ∧
    0 ≤ (applyOps ownerId initWallet ops).balance :=
  walletInv_applyOps ownerId initWallet ops walletInv_init

/-- C8.  For a positive integer amount, debit fails with the
insufficient-credits error and mutates nothing when the balance minus
the amount is negative; otherwise it decreases the balance by the amount
and appends exactly one debit ledger entry snapshotting the new
balance. -/
theorem debit_insufficient_no_mutation_else_single_entry
    (ownerId : Nat) (s : WalletState) (a : Int) (m : TxnMeta)
    (ha : 0 < a) :
    (s.balance - a < 0 →
      debit ownerId s a m = .error .insufficientCredits ∧
      applyOp ownerId s (.debit a m) = s) ∧
    (0 ≤ s.balance - a →
      debit ownerId s a m = .ok
        ⟨s.balance - a,
          s.ledger ++
            [⟨ownerId, .debit, a.natAbs, s.balance - a, m.reason,
              m.campaignId, m.messageId⟩]⟩) := by
  constructor
  · intro hlt
    have hcond : s.balance + -a < 0 := by omega
    constructor
    · simp [debit, appendTxnAndUpdate, ha, not_le.mpr ha, hcond]
    · simp [applyOp, debit, appendTxnAndUpdate, ha, not_le.mpr ha, hcond,
        recoverState]
  · intro hge
    have hcond : ¬ s.balance + -a < 0 := by omega
    simp [debit, appendTxnAndUpdate, not_le.mpr ha, hcond,
      Int.natAbs_neg, sub_eq_add_neg]

/-- Witness for C8 at balance 2: a debit of 5 fails without mutation,
and a debit of 2 succeeds, appending one debit row with balanceAfter
0. -/
theorem debit_insufficient_witness :
    (0 : Int) < 5 ∧
    debit 1 { balance := 2, ledger := [] } 5 {} =
      .error .insufficientCredits ∧
    applyOp 1 { balance := 2, ledger := [] } (.debit 5 {}) =
      { balance := 2, ledger := [] } ∧
    debit 1 { balance := 2, ledger := [] } 2 {} = .ok
      ⟨0, [⟨1, .debit, 2, 0, none, none, none⟩]⟩ := by
  refine ⟨by norm_num, ?_, ?_, ?_⟩
  · exact ((debit_insufficient_no_mutation_else_single_entry 1
      { balance := 2, ledger := [] } 5 {} (by norm_num)).1 (by norm_num)).1
  · exact ((debit_insufficient_no_mutation_else_single_entry 1
      { balance := 2, ledger := [] } 5 {} (by norm_num)).1 (by norm_num)).2
  · have h := (debit_insufficient_no_mutation_else_single_entry 1
      { balance := 2, ledger := [] } 2 {} (by norm_num)).2 (by norm_num)
    simpa using h

/-! ## Campaign enqueue transaction (campaignEnqueue.service.js) -/

/-- Campaign.status lifecycle states. -/
inductive CampaignStatus
  | draft
  | scheduled
  | sending
  | paused
  | completed
  | failed
deriving DecidableEq, Repr

/-- CampaignMessage.status states. -/
inductive MsgStatus
  | queued
  | sent
  | delivered
  | failed
deriving DecidableEq, Repr

/-- A contact row (the columns the pipeline touches). -/
structure Contact where
  id : Nat
  ownerId : Nat
  firstName : Option String
  lastName : Option String
  email : Option String
  phone : String
  isSubscribed : Bool
  unsubscribedAt : Option Nat
deriving DecidableEq, Repr

/-- A ListMembership row with its included contact. -/
structure Membership where
  listId : Nat
  contactId : Nat
  contact : Contact
deriving DecidableEq, Repr

/-- A Campaign row with its included template text. -/
structure Campaign where
  id : Nat
  ownerId : Nat
  listId : Nat
  templateText : String
  status : CampaignStatus
  startedAt : Option Nat
  finishedAt : Option Nat
  scheduledAt : Option Nat
  total : Nat
deriving DecidableEq, Repr

/-- A CampaignMessage row.  The source's `to` column is named `dest`
here. -/
structure Message where
  id : Nat
  ownerId : Nat
  campaignId : Nat
  contactId : Nat
  dest : String
  text : String
  trackingId : String
  status : MsgStatus
  providerMessageId : Option String
  sentAt : Option Nat
  deliveredAt : Option Nat
  failedAt : Option Nat
  error : Option String
deriving DecidableEq, Repr

/-- Whether the pattern is a prefix of the character list. -/
def startsWithChars : List Char → List Char → Bool
  | _, [] => true
  | [], _ :: _ => false
  | c :: cs, p :: ps => c == p && startsWithChars cs ps

/-- Replace every non-overlapping occurrence of pat by rep, scanning
left to right; fuel bounds the recursion (the input length always
suffices, since every step consumes at least one character). -/
def replaceAuxF (pat rep : List Char) : Nat → List Char → List Char
  | 0, l => l
  | _ + 1, [] => []
  | f + 1, c :: cs =>
      if pat.isEmpty = false ∧ startsWithChars (c :: cs) pat then
        rep ++ replaceAuxF pat rep f ((c :: cs).drop pat.length)
      else c :: replaceAuxF pat rep f cs

/-- Global string replacement of a literal pattern, the semantics of
the source's .replace with a global regex of a literal. -/
def replaceStr (s pat rep : String) : String :=
  ⟨replaceAuxF pat.data rep.data s.data.length s.data⟩

/-- render: substitute the firstName/lastName/email placeholders with
the contact's fields, missing fields becoming the empty string.  The
source's regex also tolerates inner whitespace and mixed case in the
placeholder; the canonical spelling is modelled. -/
def render (templateText : String) (c : Contact) : String :=
  replaceStr
    (replaceStr
      (replaceStr templateText "{{firstName}}" (c.firstName.getD ""))
      "{{lastName}}" (c.lastName.getD ""))
    "{{email}}" (c.email.getD "")

/-- The database slice the enqueue transaction touches: one campaign
row, the membership table, the owner's wallet, the CampaignMessage
table, the set of dispatch task ids, and the autoincrement counter for
message ids. -/
structure EnqDb where
  campaign : Campaign
  memberships : List Membership
  wallet : WalletState
  messages : List Message
  jobs : List Nat
  nextMsgId : Nat
deriving DecidableEq, Repr

/-- The structured results enqueueCampaign can return. -/
inductive EnqResult
  | notFound
  | invalidStatus (st : CampaignStatus)
  | alreadySending
  | noRecipients
  | insufficientCredits
  | thrown (e : WalletErr)
  | ok (created : Nat) (enqueuedJobs : Nat)
deriving DecidableEq, Repr

/-- The statuses from which enqueue is legal. -/
def legalEnqueueStatuses : List CampaignStatus :=
  [.draft, .scheduled, .paused]

/-- createMany with skipDuplicates: append the batch, skipping rows
that would violate the unique trackingId constraint. -/
def createManySkipDup (existing : List Message) (batch : List Message) :
    List Message :=
  batch.foldl
    (fun acc row =>
      if acc.any (fun m' => m'.trackingId = row.trackingId) then acc
      else acc ++ [row])
    existing

/-- The resolved audience: the campaign's list memberships whose
contact is currently subscribed (the findMany filter in step 1). -/
def resolvedMembers (db : EnqDb) : List Membership :=
  db.memberships.filter
    (fun m => m.listId == db.campaign.listId && m.contact.isSubscribed)

/-- The CampaignMessage rows materialized for the resolved audience:
status queued, rendered text, fresh tracking id, ids continuing the
autoincrement counter. -/
def builtMessages (db : EnqDb) (tid : Nat → String) : List Message :=
  ((List.range (resolvedMembers db).length).zip (resolvedMembers db)).map
    (fun p =>
      ⟨db.nextMsgId + p.1, db.campaign.ownerId, db.campaign.id,
        p.2.contactId, p.2.contact.phone,
        render db.campaign.templateText p.2.contact, tid p.1, .queued,
        none, none, none, none, none⟩)

/-- enqueueCampaign.  `readStatus` is the campaign status the opening
findUnique returned; under a concurrent enqueue it can be stale by the
time the conditional updateMany runs against the current row
(db.campaign.status), which is exactly the race the conditional update
guards.  In a race-free call readStatus = db.campaign.status.  `tid`
supplies the randomly generated tracking ids, `now` the clock.  The
model assumes the task queue is available (the smsQueue branch).  Each
branch below writes the net effect of the source's sequential updates:
the conditional update sets status sending and startedAt now before the
audience is resolved, so the no-recipients branch keeps startedAt and
the insufficient-credits branch clears it again. -/
def enqueueCampaign (cid : Nat) (readStatus : CampaignStatus) (now : Nat)
    (tid : Nat → String) (db : EnqDb) : EnqResult × EnqDb :=
  -- findUnique: campaign or not_found
  if db.campaign.id ≠ cid then (.notFound, db)
  -- guard on the status of the row as read
  else if readStatus ∉ legalEnqueueStatuses then
    (.invalidStatus readStatus, db)
  -- conditional updateMany (update-if-current-status-in-set); zero rows
  -- affected aborts with already_sending before any side effect
  else if db.campaign.status ∉ legalEnqueueStatuses then
    (.alreadySending, db)
  else if (resolvedMembers db).isEmpty then
    -- empty audience: the campaign (already flipped to sending with
    -- startedAt=now) is marked failed with finishedAt and total 0
    (.noRecipients,
      { db with campaign :=
          { db.campaign with
            status := .failed
            startedAt := some now
            finishedAt := some now
            total := 0 } })
  else
    -- step 2: debit one credit per resolved recipient via the wallet
    -- service, tagged with the campaign id
    match debit db.campaign.ownerId db.wallet
        (((resolvedMembers db).length : Nat) : Int)
        ⟨some "enqueue:campaign", some db.campaign.id, none⟩ with
    | .error e =>
        -- revert: back to draft, startedAt cleared; then surface
        -- insufficient_credits or rethrow
        if e = .insufficientCredits then
          (.insufficientCredits,
            { db with campaign :=
                { db.campaign with status := .draft, startedAt := none } })
        else
          (.thrown e,
            { db with campaign :=
                { db.campaign with status := .draft, startedAt := none } })
    | .ok w' =>
        -- step 3: set total, create the message rows (skipDuplicates);
        -- step 4: one dispatch task per queued message without a
        -- provider id, deduplicated by the deterministic job id
        let newMessages := createManySkipDup db.messages (builtMessages db tid)
        let toEnqueue := newMessages.filter
          (fun m => m.campaignId == db.campaign.id &&
            m.status == MsgStatus.queued && m.providerMessageId == none)
        (.ok (builtMessages db tid).length toEnqueue.length,
          { db with
            campaign :=
              { db.campaign with
                status := .sending
                startedAt := some now
                total := (resolvedMembers db).length }
            wallet := w'
            messages := newMessages
            nextMsgId := db.nextMsgId + (resolvedMembers db).length
            jobs := toEnqueue.foldl
              (fun js m => if js.contains m.id then js else js ++ [m.id])
              db.jobs })

/-- C2.  Enqueue is only legal from draft, scheduled or paused; when the
current status at the time of the conditional update is outside that set
(for example because a concurrent enqueue already moved the campaign to
sending), the conditional update affects zero rows and the call aborts
with already_sending and no further side effects: the returned database
is exactly the input, so no debit, no CampaignMessage rows and no
dispatch tasks. -/
theorem enqueue_concurrent_loser_aborts_clean
    (cid : Nat) (readStatus : CampaignStatus) (now : Nat)
    (tid : Nat → String) (db : EnqDb)
    (hid : db.campaign.id = cid) :
    (readStatus ∉ legalEnqueueStatuses →
      enqueueCampaign cid readStatus now tid db =
        (.invalidStatus readStatus, db)) ∧
    (readStatus ∈ legalEnqueueStatuses →
      db.campaign.status ∉ legalEnqueueStatuses →
      enqueueCampaign cid readStatus now tid db = (.alreadySending, db)) := by
  constructor
  · intro hread
    simp [enqueueCampaign, hid, hread]
  · intro hread hcur
    simp [enqueueCampaign, hid, hread, hcur]

/-- Witness for C2: a campaign already in sending at the conditional
update makes the call abort with already_sending and leave the database
untouched. -/
theorem enqueue_concurrent_loser_witness :
    enqueueCampaign 1 .draft 0 (fun _ => "t")
      { campaign := ⟨1, 1, 1, "hi", .sending, none, none, none, 0⟩,
        memberships := [], wallet := ⟨0, []⟩, messages := [], jobs := [],
        nextMsgId := 0 } =
      (.alreadySending,
        { campaign := ⟨1, 1, 1, "hi", .sending, none, none, none, 0⟩,
          memberships := [], wallet := ⟨0, []⟩, messages := [], jobs := [],
          nextMsgId := 0 }) :=
  (enqueue_concurrent_loser_aborts_clean 1 .draft 0 (fun _ => "t")
    { campaign := ⟨1, 1, 1, "hi", .sending, none, none, none, 0⟩,
      memberships := [], wallet := ⟨0, []⟩, messages := [], jobs := [],
      nextMsgId := 0 } rfl).2 (by decide) (by decide)

/-- C3, counterexample.  A scheduled campaign with one subscribed
recipient and balance 0: enqueue returns insufficient_credits, but the
status afterwards is draft, not the pre-call value scheduled — the
revert always targets draft. -/
theorem enqueue_insufficient_status_counterexample :
    (enqueueCampaign 1 .scheduled 0 (fun _ => "t")
      { campaign := ⟨1, 1, 1, "hi", .scheduled, none, none, some 10, 0⟩,
        memberships := [⟨1, 1, ⟨1, 1, none, none, none, "+301", true, none⟩⟩],
        wallet := ⟨0, []⟩, messages := [], jobs := [],
        nextMsgId := 0 }).1 = .insufficientCredits ∧
    (enqueueCampaign 1 .scheduled 0 (fun _ => "t")
      { campaign := ⟨1, 1, 1, "hi", .scheduled, none, none, some 10, 0⟩,
        memberships := [⟨1, 1, ⟨1, 1, none, none, none, "+301", true, none⟩⟩],
        wallet := ⟨0, []⟩, messages := [], jobs := [],
        nextMsgId := 0 }).2.campaign.status ≠ .scheduled := by
  decide

/-- C3 as amended.  For a campaign in an enqueueable status whose
owner's balance is smaller than the resolved recipient count, enqueue
returns insufficient_credits and reverts the campaign to draft with
startedAt cleared (not to the pre-call status); nothing else changes: in
particular the wallet, the ledger and the CampaignMessage table are
exactly as before the call, so zero message rows exist afterwards when
zero existed before. -/
theorem enqueue_insufficient_credits_reverts_to_draft
    (cid now : Nat) (tid : Nat → String) (db : EnqDb)
    (hid : db.campaign.id = cid)
    (hcur : db.campaign.status ∈ legalEnqueueStatuses)
    (hmem : (resolvedMembers db).isEmpty = false)
    (hbal : db.wallet.balance < ((resolvedMembers db).length : Int)) :
    enqueueCampaign cid db.campaign.status now tid db =
      (.insufficientCredits,
        { db with campaign :=
            { db.campaign with status := .draft, startedAt := none } }) := by
  have hne : ¬ db.campaign.id ≠ cid := by simp [hid]
  have hlen : 0 < (resolvedMembers db).length := by
    cases hcase : resolvedMembers db with
    | nil => rw [hcase] at hmem; simp [List.isEmpty] at hmem
    | cons a l => simp [hcase]
  have h1 : ¬ (((resolvedMembers db).length : Int) ≤ 0) := by
    omega
  have h2 : db.wallet.balance + -((resolvedMembers db).length : Int) < 0 := by
    omega
  have hdeb : debit db.campaign.ownerId db.wallet
      (((resolvedMembers db).length : Nat) : Int)
      ⟨some "enqueue:campaign", some db.campaign.id, none⟩ =
      .error .insufficientCredits := by
    unfold debit appendTxnAndUpdate
    rw [if_neg h1]
    simp only []
    rw [if_pos h2]
  have hmem' : ¬ ((resolvedMembers db).isEmpty = true) := by
    rw [hmem]
    exact Bool.false_ne_true
  unfold enqueueCampaign
  rw [if_neg hne, if_neg (not_not_intro hcur), if_neg (not_not_intro hcur),
    if_neg hmem', hdeb]
  rfl

/-- Witness for the amended C3: a draft campaign with one subscribed
recipient and balance 0 reverts to draft with everything else
untouched. -/
theorem enqueue_insufficient_credits_witness :
    enqueueCampaign 1 .draft 0 (fun _ => "t")
      { campaign := ⟨1, 1, 1, "hi", .draft, none, none, none, 0⟩,
        memberships := [⟨1, 1, ⟨1, 1, none, none, none, "+301", true, none⟩⟩],
        wallet := ⟨0, []⟩, messages := [], jobs := [],
        nextMsgId := 0 } =
      (.insufficientCredits,
        { campaign := ⟨1, 1, 1, "hi", .draft, none, none, none, 0⟩,
          memberships := [⟨1, 1, ⟨1, 1, none, none, none, "+301", true, none⟩⟩],
          wallet := ⟨0, []⟩, messages := [], jobs := [],
          nextMsgId := 0 }) := by
  have h := enqueue_insufficient_credits_reverts_to_draft 1 0 (fun _ => "t")
    { campaign := ⟨1, 1, 1, "hi", .draft, none, none, none, 0⟩,
      memberships := [⟨1, 1, ⟨1, 1, none, none, none, "+301", true, none⟩⟩],
      wallet := ⟨0, []⟩, messages := [], jobs := [],
      nextMsgId := 0 } rfl (by decide) (by decide) (by decide)
  simpa using h

lemma mem_createManySkipDup {existing batch : List Message} {x : Message}
    (h : x ∈ createManySkipDup existing batch) :
    x ∈ existing ∨ x ∈ batch := by
  induction batch generalizing existing with
  | nil => exact Or.inl h
  | cons b rest ih =>
      simp only [createManySkipDup, List.foldl_cons] at h
      by_cases hb : existing.any (fun m' => m'.trackingId = b.trackingId)
      · rw [if_pos hb] at h
        rcases ih h with h' | h'
        · exact Or.inl h'
        · exact Or.inr (List.mem_cons_of_mem b h')
      · rw [if_neg hb] at h
        rcases ih h with h' | h'
        · rcases List.mem_append.mp h' with h'' | h''
          · exact Or.inl h''
          · simp at h''
            exact Or.inr (by rw [h'']; exact List.mem_cons_self _ _)
        · exact Or.inr (List.mem_cons_of_mem b h')

/-- C9.  A contact that is unsubscribed before enqueue runs never gets a
CampaignMessage row, even when a list membership still references them:
every message row present after the call either predates the call or
belongs to a different contact, because audience resolution keeps only
memberships whose contact has isSubscribed true. -/
theorem enqueue_excludes_unsubscribed
    (cid : Nat) (readStatus : CampaignStatus) (now : Nat)
    (tid : Nat → String) (db : EnqDb) (badId : Nat)
    (hunsub : ∀ m ∈ db.memberships, m.contactId = badId →
      m.contact.isSubscribed = false) :
    ∀ msg ∈ (enqueueCampaign cid readStatus now tid db).2.messages,
      msg ∈ db.messages ∨ msg.contactId ≠ badId := by
  intro msg hmsg
  unfold enqueueCampaign at hmsg
  by_cases h1 : db.campaign.id ≠ cid
  · rw [if_pos h1] at hmsg
    exact Or.inl hmsg
  rw [if_neg h1] at hmsg
  by_cases h2 : readStatus ∉ legalEnqueueStatuses
  · rw [if_pos h2] at hmsg
    exact Or.inl hmsg
  rw [if_neg h2] at hmsg
  by_cases h3 : db.campaign.status ∉ legalEnqueueStatuses
  · rw [if_pos h3] at hmsg
    exact Or.inl hmsg
  rw [if_neg h3] at hmsg
  by_cases h4 : (resolvedMembers db).isEmpty
  · rw [if_pos h4] at hmsg
    exact Or.inl hmsg
  rw [if_neg h4] at hmsg
  rcases hdeb : debit db.campaign.ownerId db.wallet
      (((resolvedMembers db).length : Nat) : Int)
      ⟨some "enqueue:campaign", some db.campaign.id, none⟩ with e | w'
  · rw [hdeb] at hmsg
    cases e <;> exact Or.inl hmsg
  · rw [hdeb] at hmsg
    simp only [] at hmsg
    rcases mem_createManySkipDup hmsg with h | h
    · exact Or.inl h
    · right
      simp only [builtMessages, List.mem_map] at h
      obtain ⟨p, hp, hmap⟩ := h
      have hp2 := (List.of_mem_zip hp).2
      unfold resolvedMembers at hp2
      rw [List.mem_filter] at hp2
      have hsub : p.2.contact.isSubscribed := by
        have h5 := hp2.2
        simp only [Bool.and_eq_true] at h5
        exact h5.2
      intro hbad
      have hcontact : msg.contactId = p.2.contactId := by
        rw [← hmap]
      have h6 := hunsub p.2 hp2.1 (by rw [← hcontact, hbad])
      rw [h6] at hsub
      exact Bool.noConfusion hsub

/-- Witness for C9: with one unsubscribed membership (contact 9) and
one subscribed one (contact 2), the single created message row is the
one for contact 2, and the theorem yields that it is not contact 9's. -/
theorem enqueue_excludes_unsubscribed_witness :
    (⟨0, 1, 1, 2, "+302", "hi", "t", .queued, none, none, none, none,
      none⟩ : Message) ∈
      (enqueueCampaign 1 .draft 0 (fun _ => "t")
        { campaign := ⟨1, 1, 1, "hi", .draft, none, none, none, 0⟩,
          memberships :=
            [⟨1, 9, ⟨9, 1, none, none, none, "+309", false, some 3⟩⟩,
             ⟨1, 2, ⟨2, 1, none, none, none, "+302", true, none⟩⟩],
          wallet := ⟨5, []⟩, messages := [], jobs := [],
          nextMsgId := 0 }).2.messages ∧
    ((⟨0, 1, 1, 2, "+302", "hi", "t", .queued, none, none, none, none,
      none⟩ : Message) ∈ ([] : List Message) ∨
      (⟨0, 1, 1, 2, "+302", "hi", "t", .queued, none, none, none, none,
        none⟩ : Message).contactId ≠ 9) :=
  ⟨by decide,
    enqueue_excludes_unsubscribed 1 .draft 0 (fun _ => "t")
      { campaign := ⟨1, 1, 1, "hi", .draft, none, none, none, 0⟩,
        memberships :=
          [⟨1, 9, ⟨9, 1, none, none, none, "+309", false, some 3⟩⟩,
           ⟨1, 2, ⟨2, 1, none, none, none, "+302", true, none⟩⟩],
        wallet := ⟨5, []⟩, messages := [], jobs := [],
        nextMsgId := 0 } 9 (by decide)
      ⟨0, 1, 1, 2, "+302", "hi", "t", .queued, none, none, none, none,
        none⟩ (by decide)⟩

/-! ## Dispatch worker failure path and campaign finalizers
(sms.worker.js, campaignFinalizer.service.js) -/

/-- The database slice the worker and the finalizers touch. -/
structure WorkDb where
  campaigns : List Campaign
  messages : List Message
  wallet : WalletState
deriving DecidableEq, Repr

/-- Messages of the campaign still in status queued (the count the
worker's maybeCompleteCampaign checks). -/
def queuedCount (db : WorkDb) (cid : Nat) : Nat :=
  (db.messages.filter
    (fun m => m.campaignId == cid && m.status == MsgStatus.queued)).length

/-- Messages of the campaign still in a non-terminal status, queued or
sent (the count finalizeCampaignIfDone checks). -/
def nonTerminalCount (db : WorkDb) (cid : Nat) : Nat :=
  (db.messages.filter
    (fun m => m.campaignId == cid &&
      (m.status == MsgStatus.queued || m.status == MsgStatus.sent))).length

/-- maybeCompleteCampaign (sms.worker.js): when no message of the
campaign is still queued, unconditionally update the campaign row to
completed with finishedAt=now.  A falsy campaign id returns early. -/
def maybeCompleteCampaign (now cid : Nat) (db : WorkDb) : WorkDb :=
  if cid = 0 then db
  else if queuedCount db cid = 0 then
    { db with
      campaigns :=
        db.campaigns.map (fun c =>
          if c.id = cid then
            { c with status := .completed, finishedAt := some now }
          else c) }
  else db

/-- finalizeCampaignIfDone (campaignFinalizer.service.js): when no
message of the campaign remains queued or sent, conditionally update
the campaign to completed (updateMany guarded by status not already
completed). -/
def finalizeCampaignIfDone (now cid : Nat) (db : WorkDb) : WorkDb :=
  if cid = 0 then db
  else if nonTerminalCount db cid = 0 then
    { db with
      campaigns :=
        db.campaigns.map (fun c =>
          if c.id = cid ∧ c.status ≠ .completed then
            { c with status := .completed, finishedAt := some now }
          else c) }
  else db

/-- The error a failed provider call throws: an optional HTTP-like
status code plus the error message. -/
structure ProviderErr where
  status : Option Nat
  message : String
deriving DecidableEq, Repr

/-- isRetryable: no status (the JS falsy test, which also catches a
literal 0), a 5xx, or 429 are retryable; every other status is a hard
4xx-style failure. -/
def isRetryable (e : ProviderErr) : Bool :=
  match e.status with
  | none => true
  | some s => if s = 0 then true else if 500 ≤ s then true else s == 429

/-- The error text recorded on the message row:
e.message sliced to 500 characters, with the JS falsy fallback
to the literal send_failed for an empty message. -/
def errText (e : ProviderErr) : String :=
  if e.message.isEmpty then "send_failed" else e.message.take 500

/-- The worker processor's catch branch: load the message (and its
campaign via the include), classify the error, update the message row
(queued with failedAt cleared when retryable, failed with failedAt=now
otherwise), on a hard failure refund 1 credit tagged by the message id
(a refund error is swallowed) and attempt campaign auto-completion.
The returned Bool is whether the error is re-thrown to the task
dispatcher for retry. -/
def handleSendFailure (now msgId : Nat) (e : ProviderErr) (db : WorkDb) :
    WorkDb × Bool :=
  match db.messages.find? (fun m => m.id == msgId) with
  | none => (db, false)
  | some msg =>
    match db.campaigns.find? (fun c => c.id == msg.campaignId) with
    | none => (db, false)
    | some camp =>
      let retry := isRetryable e
      let db1 : WorkDb :=
        { db with
          messages :=
            db.messages.map (fun m =>
              if m.id == msgId then
                { m with
                  failedAt := if retry then none else some now
                  status := if retry then .queued else .failed
                  error := some (errText e) }
              else m) }
      if retry then (db1, true)
      else
        let w' := recoverState db1.wallet
          (refund camp.ownerId db1.wallet 1
            ⟨some ("hardfail:message:" ++ toString msg.id),
              some msg.campaignId, some msg.id⟩)
        (maybeCompleteCampaign now msg.campaignId { db1 with wallet := w' },
          false)

/-- Refund ledger entries tagged with the given message id. -/
def refundsFor (w : WalletState) (mid : Nat) : Nat :=
  (w.ledger.filter
    (fun en => en.ty == TxnType.refund && en.messageId == some mid)).length

lemma maybeCompleteCampaign_wallet (now cid : Nat) (db : WorkDb) :
    (maybeCompleteCampaign now cid db).wallet = db.wallet := by
  unfold maybeCompleteCampaign
  split_ifs <;> rfl

lemma maybeCompleteCampaign_messages (now cid : Nat) (db : WorkDb) :
    (maybeCompleteCampaign now cid db).messages = db.messages := by
  unfold maybeCompleteCampaign
  split_ifs <;> rfl

/-- C6.  A retryable provider failure (no status code, a 5xx, or 429)
leaves the message queued with the error text recorded and failedAt
cleared, touches neither the wallet nor the ledger, and re-throws the
task so the dispatcher retries it; and every positive status below 500
other than 429 is classified terminal. -/
theorem retryable_failure_keeps_queued
    (now msgId : Nat) (e : ProviderErr) (db : WorkDb)
    (msg : Message) (camp : Campaign)
    (hmsg : db.messages.find? (fun m => m.id == msgId) = some msg)
    (hcamp : db.campaigns.find? (fun c => c.id == msg.campaignId) = some camp)
    (hretry : e.status = none ∨ ∃ s, e.status = some s ∧ (500 ≤ s ∨ s = 429)) :
    handleSendFailure now msgId e db =
      ({ db with
         messages :=
           db.messages.map (fun m =>
             if m.id == msgId then
               { m with
                 failedAt := none
                 status := .queued
                 error := some (errText e) }
             else m) }, true) ∧
    (∀ (s : Nat) (txt : String), 0 < s → s < 500 → s ≠ 429 →
      isRetryable ⟨some s, txt⟩ = false) := by
  have hr : isRetryable e = true := by
    rcases hretry with h | ⟨s, hs, h5 | h5⟩
    · simp [isRetryable, h]
    · have h0 : ¬ s = 0 := by omega
      simp [isRetryable, hs, h0, h5]
    · subst h5
      simp [isRetryable, hs]
  constructor
  · simp [handleSendFailure, hmsg, hcamp, hr]
  · intro s txt h0 h5 h429
    simp only [isRetryable]
    rw [if_neg (by omega), if_neg (by omega)]
    simp [h429]

/-- Witness for C6: a 503 failure on a queued message re-queues it,
records the error text (the empty message falls back to send_failed),
leaves the ledger empty, and re-throws. -/
theorem retryable_failure_keeps_queued_witness :
    handleSendFailure 5 10 ⟨some 503, ""⟩
      (⟨[⟨1, 7, 1, "t", .sending, some 0, none, none, 1⟩],
        [⟨10, 7, 1, 2, "+30", "hello", "tk", .queued, none, none, none,
          none, none⟩], ⟨0, []⟩⟩ : WorkDb) =
      ((⟨[⟨1, 7, 1, "t", .sending, some 0, none, none, 1⟩],
        [⟨10, 7, 1, 2, "+30", "hello", "tk", .queued, none, none, none,
          none, some "send_failed"⟩], ⟨0, []⟩⟩ : WorkDb), true) ∧
    isRetryable ⟨some 404, "x"⟩ = false := by
  have h := retryable_failure_keeps_queued 5 10 ⟨some 503, ""⟩
    (⟨[⟨1, 7, 1, "t", .sending, some 0, none, none, 1⟩],
      [⟨10, 7, 1, 2, "+30", "hello", "tk", .queued, none, none, none,
        none, none⟩], ⟨0, []⟩⟩ : WorkDb)
    ⟨10, 7, 1, 2, "+30", "hello", "tk", .queued, none, none, none,
      none, none⟩
    ⟨1, 7, 1, "t", .sending, some 0, none, none, 1⟩
    (by decide) (by decide) (Or.inr ⟨503, rfl, Or.inl (by norm_num)⟩)
  refine ⟨?_, h.2 404 "x" (by norm_num) (by norm_num) (by norm_num)⟩
  rw [h.1]
  decide

/-- C4, counterexample.  A terminal 400 failure refunds once; but
executing the same terminal-failure path again for the same message
(task redelivery) appends a second refund entry tagged with the same
message id — the refund is not idempotent, so "exactly one refund entry
even if the path runs again" fails. -/
theorem terminal_failure_refund_not_idempotent_counterexample :
    refundsFor ((handleSendFailure 5 10 ⟨some 400, "bad"⟩
      (⟨[⟨1, 7, 1, "t", .sending, some 0, none, none, 1⟩],
        [⟨10, 7, 1, 2, "+30", "hello", "tk", .queued, none, none, none,
          none, none⟩], ⟨0, []⟩⟩ : WorkDb)).1).wallet 10 = 1 ∧
    refundsFor ((handleSendFailure 6 10 ⟨some 400, "bad"⟩
      ((handleSendFailure 5 10 ⟨some 400, "bad"⟩
        (⟨[⟨1, 7, 1, "t", .sending, some 0, none, none, 1⟩],
          [⟨10, 7, 1, 2, "+30", "hello", "tk", .queued, none, none, none,
            none, none⟩], ⟨0, []⟩⟩ : WorkDb)).1)).1).wallet 10 = 2 := by
  decide

/-- C4 as amended.  A single execution of the terminal-failure path
(4xx other than 429) ends the message in status failed with failedAt
set and appends exactly one refund ledger entry of 1 credit tagged with
that message's id (so exactly one exists when none existed before) and
does not re-throw; the refund is not idempotent, so re-executing the
path for the same message appends a further refund entry (see the
counterexample). -/
theorem terminal_failure_single_refund
    (now msgId : Nat) (e : ProviderErr) (db : WorkDb)
    (msg : Message) (camp : Campaign)
    (hmsg : db.messages.find? (fun m => m.id == msgId) = some msg)
    (hcamp : db.campaigns.find? (fun c => c.id == msg.campaignId) = some camp)
    (hterm : isRetryable e = false)
    (hbal : 0 ≤ db.wallet.balance)
    (hnone : refundsFor db.wallet msgId = 0) :
    (handleSendFailure now msgId e db).2 = false ∧
    refundsFor (handleSendFailure now msgId e db).1.wallet msgId = 1 ∧
    (∃ en : LedgerEntry,
      (handleSendFailure now msgId e db).1.wallet.ledger =
        db.wallet.ledger ++ [en] ∧
      en.ty = .refund ∧ en.amount = 1 ∧ en.messageId = some msgId) ∧
    (∀ m ∈ (handleSendFailure now msgId e db).1.messages,
      m.id = msgId → m.status = .failed ∧ m.failedAt = some now) := by
  have hmsgid : msg.id = msgId := by
    have h := List.find?_some hmsg
    simpa using h
  have h1 : ¬ ((1 : Int) ≤ 0) := by norm_num
  have h2 : ¬ (db.wallet.balance + 1 < 0) := by omega
  have hrefund : refund camp.ownerId db.wallet 1
      ⟨some ("hardfail:message:" ++ toString msg.id),
        some msg.campaignId, some msg.id⟩ =
      .ok ⟨db.wallet.balance + 1,
        db.wallet.ledger ++
          [⟨camp.ownerId, .refund, 1, db.wallet.balance + 1,
            some ("hardfail:message:" ++ toString msg.id),
            some msg.campaignId, some msg.id⟩]⟩ := by
    unfold refund appendTxnAndUpdate
    rw [if_neg h1]
    simp only []
    rw [if_neg h2]
    norm_num
  have hstep : handleSendFailure now msgId e db =
      (maybeCompleteCampaign now msg.campaignId
        { db with
          messages :=
            db.messages.map (fun m =>
              if m.id == msgId then
                { m with
                  failedAt := some now
                  status := .failed
                  error := some (errText e) }
              else m)
          wallet :=
            ⟨db.wallet.balance + 1,
              db.wallet.ledger ++
                [⟨camp.ownerId, .refund, 1, db.wallet.balance + 1,
                  some ("hardfail:message:" ++ toString msg.id),
                  some msg.campaignId, some msg.id⟩]⟩ }, false) := by
    simp only [handleSendFailure, hmsg, hcamp, hterm]
    rw [hrefund]
    simp [recoverState]
  simp only [refundsFor] at hnone
  refine ⟨by rw [hstep], ?_, ?_, ?_⟩
  · rw [hstep]
    simp only [maybeCompleteCampaign_wallet, refundsFor, List.filter_append,
      List.length_append, hnone]
    simp [hmsgid]
  · refine ⟨⟨camp.ownerId, .refund, 1, db.wallet.balance + 1,
      some ("hardfail:message:" ++ toString msg.id),
      some msg.campaignId, some msg.id⟩, ?_, rfl, rfl, by rw [hmsgid]⟩
    rw [hstep]
    simp [maybeCompleteCampaign_wallet]
  · intro m hm hid
    rw [hstep] at hm
    simp only [maybeCompleteCampaign_messages] at hm
    rcases List.mem_map.mp hm with ⟨m0, hm0, hfm⟩
    by_cases hc : m0.id == msgId
    · rw [if_pos hc] at hfm
      subst hfm
      exact ⟨rfl, rfl⟩
    · rw [if_neg hc] at hfm
      subst hfm
      exact absurd (by simp [hid]) hc

/-- Witness for the amended C4: a 400 failure on message 10 ends it
failed with failedAt set and exactly one refund entry of 1 credit
tagged with id 10. -/
theorem terminal_failure_single_refund_witness :
    (handleSendFailure 5 10 ⟨some 400, "bad"⟩
      (⟨[⟨1, 7, 1, "t", .sending, some 0, none, none, 1⟩],
        [⟨10, 7, 1, 2, "+30", "hello", "tk", .queued, none, none, none,
          none, none⟩], ⟨0, []⟩⟩ : WorkDb)).2 = false ∧
    refundsFor (handleSendFailure 5 10 ⟨some 400, "bad"⟩
      (⟨[⟨1, 7, 1, "t", .sending, some 0, none, none, 1⟩],
        [⟨10, 7, 1, 2, "+30", "hello", "tk", .queued, none, none, none,
          none, none⟩], ⟨0, []⟩⟩ : WorkDb)).1.wallet 10 = 1 := by
  have h := terminal_failure_single_refund 5 10 ⟨some 400, "bad"⟩
    (⟨[⟨1, 7, 1, "t", .sending, some 0, none, none, 1⟩],
      [⟨10, 7, 1, 2, "+30", "hello", "tk", .queued, none, none, none,
        none, none⟩], ⟨0, []⟩⟩ : WorkDb)
    ⟨10, 7, 1, 2, "+30", "hello", "tk", .queued, none, none, none,
      none, none⟩
    ⟨1, 7, 1, "t", .sending, some 0, none, none, 1⟩
    (by decide) (by decide) (by decide) (by decide) (by decide)
  exact ⟨h.1, h.2.1⟩

lemma list_map_self {α : Type} (l : List α) (f : α → α)
    (h : ∀ x ∈ l, f x = x) : l.map f = l := by
  induction l with
  | nil => rfl
  | cons a t ih =>
      rw [List.map_cons, h a (List.mem_cons_self a t),
        ih (fun x hx => h x (List.mem_cons_of_mem a hx))]

/-- C5, counterexample.  A campaign whose only message is in status
sent (a non-terminal status) has exactly one non-terminal message, yet
the worker's maybeCompleteCampaign still transitions it to completed
with finishedAt set, because it only counts queued messages and its
update is unconditional — refuting that completion happens only when
zero messages remain queued or sent. -/
theorem campaign_completion_counterexample :
    nonTerminalCount
      (⟨[⟨1, 7, 1, "t", .sending, some 0, none, none, 1⟩],
        [⟨10, 7, 1, 2, "+30", "x", "tk", .sent, some "p", some 4, none,
          none, none⟩], ⟨0, []⟩⟩ : WorkDb) 1 = 1 ∧
    (maybeCompleteCampaign 5 1
      (⟨[⟨1, 7, 1, "t", .sending, some 0, none, none, 1⟩],
        [⟨10, 7, 1, 2, "+30", "x", "tk", .sent, some "p", some 4, none,
          none, none⟩], ⟨0, []⟩⟩ : WorkDb)).campaigns =
      [⟨1, 7, 1, "t", .completed, some 0, some 5, none, 1⟩] := by
  decide

/-- C5 as amended.  The two completion paths differ:
finalizeCampaignIfDone transitions a campaign to completed (setting
finishedAt) only when zero of its messages remain queued or sent, and
its update is guarded by the status not already being completed, so
redundant triggers converge; the worker's maybeCompleteCampaign instead
transitions whenever zero messages remain queued — messages in status
sent do not block it — and its update is unconditional, so it sets
finishedAt again on every redundant trigger. -/
theorem finalizer_behavior (now cid : Nat) (db : WorkDb) (c : Campaign)
    (hc : c ∈ db.campaigns) (hcid : c.id = cid) (hzero : cid ≠ 0) :
    (0 < nonTerminalCount db cid → finalizeCampaignIfDone now cid db = db) ∧
    (nonTerminalCount db cid = 0 → c.status ≠ .completed →
      ∃ c₂ ∈ (finalizeCampaignIfDone now cid db).campaigns,
        c₂.id = cid ∧ c₂.status = .completed ∧ c₂.finishedAt = some now) ∧
    ((∀ c' ∈ db.campaigns, c'.id = cid → c'.status = .completed) →
      finalizeCampaignIfDone now cid db = db) ∧
    (0 < queuedCount db cid → maybeCompleteCampaign now cid db = db) ∧
    (queuedCount db cid = 0 →
      ∃ c₂ ∈ (maybeCompleteCampaign now cid db).campaigns,
        c₂.id = cid ∧ c₂.status = .completed ∧ c₂.finishedAt = some now) := by
  refine ⟨?_, ?_, ?_, ?_, ?_⟩
  · intro hpos
    unfold finalizeCampaignIfDone
    rw [if_neg hzero, if_neg (by omega)]
  · intro hcnt hstat
    unfold finalizeCampaignIfDone
    rw [if_neg hzero, if_pos hcnt]
    refine ⟨{ c with status := .completed, finishedAt := some now },
      ?_, hcid, rfl, rfl⟩
    have hfc :
        (if c.id = cid ∧ c.status ≠ CampaignStatus.completed then
          { c with status := .completed, finishedAt := some now }
        else c) =
        { c with status := .completed, finishedAt := some now } :=
      if_pos ⟨hcid, hstat⟩
    exact hfc ▸ List.mem_map_of_mem _ hc
  · intro hall
    unfold finalizeCampaignIfDone
    rw [if_neg hzero]
    by_cases hcnt : nonTerminalCount db cid = 0
    · rw [if_pos hcnt]
      have hmap : db.campaigns.map
          (fun c' =>
            if c'.id = cid ∧ c'.status ≠ CampaignStatus.completed then
              { c' with status := .completed, finishedAt := some now }
            else c') = db.campaigns := by
        refine list_map_self _ _ (fun x hx => ?_)
        refine if_neg ?_
        rintro ⟨hx1, hx2⟩
        exact hx2 (hall x hx hx1)
      rw [hmap]
    · rw [if_neg hcnt]
  · intro hpos
    unfold maybeCompleteCampaign
    rw [if_neg hzero, if_neg (by omega)]
  · intro hq
    unfold maybeCompleteCampaign
    rw [if_neg hzero, if_pos hq]
    refine ⟨{ c with status := .completed, finishedAt := some now },
      ?_, hcid, rfl, rfl⟩
    have hfc :
        (if c.id = cid then
          { c with status := .completed, finishedAt := some now }
        else c) =
        { c with status := .completed, finishedAt := some now } :=
      if_pos hcid
    exact hfc ▸ List.mem_map_of_mem _ hc

/-- Witness for the amended C5: with no messages at all, both
finalizers complete campaign 1 with finishedAt 9. -/
theorem finalizer_behavior_witness :
    (∃ c₂ ∈ (finalizeCampaignIfDone 9 1
      (⟨[⟨1, 7, 1, "t", .sending, some 0, none, none, 0⟩], [],
        ⟨0, []⟩⟩ : WorkDb)).campaigns,
      c₂.id = 1 ∧ c₂.status = .completed ∧ c₂.finishedAt = some 9) ∧
    (∃ c₂ ∈ (maybeCompleteCampaign 9 1
      (⟨[⟨1, 7, 1, "t", .sending, some 0, none, none, 0⟩], [],
        ⟨0, []⟩⟩ : WorkDb)).campaigns,
      c₂.id = 1 ∧ c₂.status = .completed ∧ c₂.finishedAt = some 9) := by
  have h := finalizer_behavior 9 1
    (⟨[⟨1, 7, 1, "t", .sending, some 0, none, none, 0⟩], [],
      ⟨0, []⟩⟩ : WorkDb)
    ⟨1, 7, 1, "t", .sending, some 0, none, none, 0⟩
    (by decide) rfl (by decide)
  exact ⟨h.2.1 (by decide) (by decide), h.2.2.2.2 (by decide)⟩

/-! ## Delivery-report webhook application (routes/mitto.webhooks.js) -/

/-- The three internal buckets a provider delivery status maps to, plus
unknown for everything unrecognized. -/
inductive DlrBucket
  | delivered
  | failed
  | sent
  | unknown
deriving DecidableEq, Repr

/-- Character-by-character ASCII lowercasing (the provider status
vocabulary is ASCII, where JS toLowerCase acts per character). -/
def lowerAux : List Char → List Char
  | [] => []
  | c :: cs => c.toLower :: lowerAux cs

/-- Lowercase a string. -/
def toLowerStr (s : String) : String := ⟨lowerAux s.data⟩

/-- mapStatus: lowercase the (possibly missing, hence the JS falsy
fallback to the empty string) provider status and bucket it. -/
def mapStatus (s : Option String) : DlrBucket :=
  let v := toLowerStr (s.getD "")
  if ["delivered", "delivrd", "completed", "ok"].contains v then .delivered
  else if ["failed", "undelivered", "expired", "rejected",
    "error"].contains v then .failed
  else if ["queued", "accepted", "submitted", "enroute",
    "sent"].contains v then .sent
  else .unknown

/-- One DLR event's application to the CampaignMessage table: an
updateMany over every row sharing the event's provider message id.
delivered-like sets status delivered with deliveredAt; failed-like sets
status failed with failedAt and the error text (JS-falsy error fields
arrive as none and fall back to FAILED_DLR); queued/accepted/sent-like
sets status sent with sentAt; unknown is logged and changes nothing. -/
def applyDlrEvent (now : Nat) (providerId : String) (statusIn : Option String)
    (errorDesc : Option String) (msgs : List Message) : List Message :=
  match mapStatus statusIn with
  | .delivered =>
      msgs.map (fun m =>
        if m.providerMessageId = some providerId then
          { m with status := .delivered, deliveredAt := some now }
        else m)
  | .failed =>
      msgs.map (fun m =>
        if m.providerMessageId = some providerId then
          { m with
            status := .failed
            failedAt := some now
            error := some (errorDesc.getD "FAILED_DLR") }
        else m)
  | .sent =>
      msgs.map (fun m =>
        if m.providerMessageId = some providerId then
          { m with status := .sent, sentAt := some now }
        else m)
  | .unknown => msgs

/-- C7.  Every DLR event falls into exactly three effective buckets and
is applied to all messages sharing the event's provider message id:
delivered-like statuses set status delivered with deliveredAt,
failed-like set status failed with failedAt and error, and
queued/accepted/sent-like set status sent; an unrecognized status
changes no message row, and rows with a different provider id are
untouched in every case. -/
theorem dlr_three_buckets (now : Nat) (providerId : String)
    (statusIn errorDesc : Option String) (msgs : List Message)
    (i : Nat) (m : Message) (hm : msgs[i]? = some m) :
    (applyDlrEvent now providerId statusIn errorDesc msgs).length =
      msgs.length ∧
    (m.providerMessageId ≠ some providerId →
      (applyDlrEvent now providerId statusIn errorDesc msgs)[i]? = some m) ∧
    (m.providerMessageId = some providerId →
      (applyDlrEvent now providerId statusIn errorDesc msgs)[i]? = some
        (match mapStatus statusIn with
         | .delivered =>
             { m with status := .delivered, deliveredAt := some now }
         | .failed =>
             { m with
               status := .failed
               failedAt := some now
               error := some (errorDesc.getD "FAILED_DLR") }
         | .sent => { m with status := .sent, sentAt := some now }
         | .unknown => m)) ∧
    (mapStatus (some "delivered") = .delivered ∧
      mapStatus (some "failed") = .failed ∧
      mapStatus (some "queued") = .sent ∧
      mapStatus (some "accepted") = .sent ∧
      mapStatus (some "sent") = .sent ∧
      mapStatus (some "whatever") = .unknown ∧
      mapStatus none = .unknown) := by
  refine ⟨?_, ?_, ?_, by decide⟩
  · unfold applyDlrEvent
    cases mapStatus statusIn <;> simp
  · intro hne
    unfold applyDlrEvent
    cases mapStatus statusIn <;>
      simp [List.getElem?_map, hm, if_neg hne]
  · intro heq
    unfold applyDlrEvent
    cases mapStatus statusIn <;>
      simp [List.getElem?_map, hm, if_pos heq]

/-- Witness for C7: a delivered event for provider id p updates the
matching row (index 0) and leaves the non-matching row (index 1)
untouched. -/
theorem dlr_three_buckets_witness :
    (applyDlrEvent 9 "p" (some "DELIVERED") none
      [⟨10, 7, 1, 2, "+30", "x", "tk", .sent, some "p", some 4, none,
        none, none⟩,
       ⟨11, 7, 1, 3, "+31", "y", "tk2", .sent, some "q", some 4, none,
        none, none⟩])[0]? = some
      ⟨10, 7, 1, 2, "+30", "x", "tk", .delivered, some "p", some 4,
        some 9, none, none⟩ ∧
    (applyDlrEvent 9 "p" (some "DELIVERED") none
      [⟨10, 7, 1, 2, "+30", "x", "tk", .sent, some "p", some 4, none,
        none, none⟩,
       ⟨11, 7, 1, 3, "+31", "y", "tk2", .sent, some "q", some 4, none,
        none, none⟩])[1]? = some
      ⟨11, 7, 1, 3, "+31", "y", "tk2", .sent, some "q", some 4, none,
        none, none⟩ := by
  constructor
  · have h := (dlr_three_buckets 9 "p" (some "DELIVERED") none
      [⟨10, 7, 1, 2, "+30", "x", "tk", .sent, some "p", some 4, none,
        none, none⟩,
       ⟨11, 7, 1, 3, "+31", "y", "tk2", .sent, some "q", some 4, none,
        none, none⟩] 0
      ⟨10, 7, 1, 2, "+30", "x", "tk", .sent, some "p", some 4, none,
        none, none⟩ rfl).2.2.1 rfl
    rw [h]
    decide
  · exact (dlr_three_buckets 9 "p" (some "DELIVERED") none
      [⟨10, 7, 1, 2, "+30", "x", "tk", .sent, some "p", some 4, none,
        none, none⟩,
       ⟨11, 7, 1, 3, "+31", "y", "tk2", .sent, some "q", some 4, none,
        none, none⟩] 1
      ⟨11, 7, 1, 3, "+31", "y", "tk2", .sent, some "q", some 4, none,
        none, none⟩ rfl).2.1 (by decide)

/-! ## Campaign statistics (campaignStats.service.js) -/

/-- A Redemption row (the columns the stats service touches). -/
structure Redemption where
  ownerId : Nat
  campaignId : Nat
  messageId : Nat
deriving DecidableEq, Repr

/-- The database slice the stats service reads. -/
structure StatsDb where
  campaigns : List Campaign
  messages : List Message
  redemptions : List Redemption
  contacts : List Contact
deriving DecidableEq, Repr

/-- Errors the stats service throws. -/
inductive StatsErr
  | ownerRequired
  | notFound
deriving DecidableEq, Repr

/-- rate: safe division, 0 when the denominator is 0.  The JS float
computation Number((numer/denom).toFixed(4)) is modelled as the exact
rational rounded half-up at four decimal places. -/
def rate (numer denom : Nat) : ℚ :=
  if 0 < denom then
    ((round (((numer : ℚ) / (denom : ℚ)) * 10000) : Int) : ℚ) / 10000
  else 0

/-- getFirstSentAt: the earliest sentAt among the campaign's messages
with sentAt set (findFirst ordered by sentAt ascending). -/
def getFirstSentAt (cid oid : Nat) (db : StatsDb) : Option Nat :=
  (db.messages.filterMap (fun m =>
    if m.ownerId = oid ∧ m.campaignId = cid then m.sentAt else none)).min?

/-- The record getCampaignStats returns. -/
structure CampaignStats where
  sent : Nat
  delivered : Nat
  failed : Nat
  redemptions : Nat
  unsubscribes : Nat
  deliveredRate : ℚ
  conversionRate : ℚ
  firstSentAt : Option Nat
deriving DecidableEq, Repr

/-- getCampaignStats: owner-scoped counts for one campaign; sent counts
every message that reached sent, delivered or failed; the rates guard
against zero denominators. -/
def getCampaignStats (cid oid : Nat) (db : StatsDb) :
    Except StatsErr CampaignStats :=
  if oid = 0 then .error .ownerRequired
  else
    match db.campaigns.find? (fun c => c.id = cid ∧ c.ownerId = oid) with
    | none => .error .notFound
    | some _ =>
        let sent := (db.messages.filter (fun m =>
          m.ownerId = oid ∧ m.campaignId = cid ∧
            (m.status = MsgStatus.sent ∨ m.status = MsgStatus.delivered ∨
              m.status = MsgStatus.failed))).length
        let delivered := (db.messages.filter (fun m =>
          m.ownerId = oid ∧ m.campaignId = cid ∧
            m.status = MsgStatus.delivered)).length
        let failedCnt := (db.messages.filter (fun m =>
          m.ownerId = oid ∧ m.campaignId = cid ∧
            m.status = MsgStatus.failed)).length
        let redemptions := (db.redemptions.filter (fun r =>
          r.ownerId = oid ∧ r.campaignId = cid)).length
        let recipientIds := ((db.messages.filter (fun m =>
          m.ownerId = oid ∧ m.campaignId = cid)).map
            (fun m => m.contactId)).eraseDups
        let firstSentAt := getFirstSentAt cid oid db
        let unsubscribes :=
          match firstSentAt with
          | some t =>
              if recipientIds.isEmpty then 0
              else (db.contacts.filter (fun c =>
                c.ownerId == oid && recipientIds.contains c.id &&
                  (match c.unsubscribedAt with
                   | some u => decide (t ≤ u)
                   | none => false))).length
          | none => 0
        .ok ⟨sent, delivered, failedCnt, redemptions, unsubscribes,
          rate delivered sent, rate redemptions delivered, firstSentAt⟩

/-- One row of getManyCampaignsStats. -/
structure CampaignStatsRow where
  campaignId : Nat
  sent : Nat
  delivered : Nat
  failed : Nat
  redemptions : Nat
  deliveredRate : ℚ
  conversionRate : ℚ
deriving DecidableEq, Repr

/-- getManyCampaignsStats: the groupBy aggregation, one summary per
distinct requested campaign id (the JS Map keeps the first occurrence
order), empty input returning the empty list. -/
def getManyCampaignsStats (cids : List Nat) (oid : Nat) (db : StatsDb) :
    Except StatsErr (List CampaignStatsRow) :=
  if oid = 0 then .error .ownerRequired
  else if cids.isEmpty then .ok []
  else
    .ok (cids.eraseDups.map (fun cid =>
      let sent := (db.messages.filter (fun m =>
        m.ownerId = oid ∧ m.campaignId = cid ∧
          (m.status = MsgStatus.sent ∨ m.status = MsgStatus.delivered ∨
            m.status = MsgStatus.failed))).length
      let delivered := (db.messages.filter (fun m =>
        m.ownerId = oid ∧ m.campaignId = cid ∧
          m.status = MsgStatus.delivered)).length
      let failedCnt := (db.messages.filter (fun m =>
        m.ownerId = oid ∧ m.campaignId = cid ∧
          m.status = MsgStatus.failed)).length
      let redemptions := (db.redemptions.filter (fun r =>
        r.ownerId = oid ∧ r.campaignId = cid)).length
      ⟨cid, sent, delivered, failedCnt, redemptions,
        rate delivered sent, rate redemptions delivered⟩))

lemma rate_zero_denom (n : Nat) : rate n 0 = 0 := by
  simp [rate]

/-- C10.  Campaign statistics never divide by zero: every stats record
either service returns has deliveredRate 0 whenever its sent count is 0
and conversionRate 0 whenever its delivered count is 0 (the rates live
in ℚ, so they are always finite). -/
theorem stats_rates_zero_guard :
    (∀ (cid oid : Nat) (db : StatsDb) (st : CampaignStats),
      getCampaignStats cid oid db = .ok st →
        (st.sent = 0 → st.deliveredRate = 0) ∧
        (st.delivered = 0 → st.conversionRate = 0)) ∧
    (∀ (cids : List Nat) (oid : Nat) (db : StatsDb)
        (out : List CampaignStatsRow),
      getManyCampaignsStats cids oid db = .ok out →
        ∀ e ∈ out, (e.sent = 0 → e.deliveredRate = 0) ∧
          (e.delivered = 0 → e.conversionRate = 0)) := by
  constructor
  · intro cid oid db st h
    unfold getCampaignStats at h
    by_cases h0 : oid = 0
    · rw [if_pos h0] at h
      exact absurd h (by simp)
    rw [if_neg h0] at h
    cases hf : db.campaigns.find? (fun c => c.id = cid ∧ c.ownerId = oid) with
    | none =>
        rw [hf] at h
        exact absurd h (by simp)
    | some c =>
        rw [hf] at h
        simp only [] at h
        injection h with h'
        subst h'
        refine ⟨fun hs => ?_, fun hd => ?_⟩
        · simp only [] at hs ⊢
          rw [hs]
          exact rate_zero_denom _
        · simp only [] at hd ⊢
          rw [hd]
          exact rate_zero_denom _
  · intro cids oid db out h
    unfold getManyCampaignsStats at h
    by_cases h0 : oid = 0
    · rw [if_pos h0] at h
      exact absurd h (by simp)
    rw [if_neg h0] at h
    by_cases hemp : cids.isEmpty
    · rw [if_pos hemp] at h
      injection h with h'
      subst h'
      intro e he
      exact absurd he (List.not_mem_nil e)
    rw [if_neg hemp] at h
    injection h with h'
    subst h'
    intro e he
    rcases List.mem_map.mp he with ⟨cid, hcid, hrow⟩
    subst hrow
    refine ⟨fun hs => ?_, fun hd => ?_⟩
    · simp only [] at hs ⊢
      rw [hs]
      exact rate_zero_denom _
    · simp only [] at hd ⊢
      rw [hd]
      exact rate_zero_denom _

/-- Witness for C10: a campaign with no messages yields sent 0 and
delivered 0, and both rates are 0. -/
theorem stats_rates_zero_guard_witness :
    ((getCampaignStats 1 4
      (⟨[⟨1, 4, 1, "t", .draft, none, none, none, 0⟩], [], [],
        []⟩ : StatsDb)) = .ok ⟨0, 0, 0, 0, 0, 0, 0, none⟩) ∧
    (0 : ℚ) = 0 ∧ (0 : ℚ) = 0 := by
  have hok : getCampaignStats 1 4
      (⟨[⟨1, 4, 1, "t", .draft, none, none, none, 0⟩], [], [],
        []⟩ : StatsDb) = .ok ⟨0, 0, 0, 0, 0, 0, 0, none⟩ := by
    rfl
  have h := (stats_rates_zero_guard.1 1 4
    (⟨[⟨1, 4, 1, "t", .draft, none, none, none, 0⟩], [], [],
      []⟩ : StatsDb) ⟨0, 0, 0, 0, 0, 0, 0, none⟩ hok)
  exact ⟨hok, h.1 rfl, h.2 rfl⟩

end SmsBackend
